import Mathlib

/-
Shallow embedding of `src/play.py` (a Python 2 script: it uses the
`unicode` builtin and `print` statements, so `/` on two ints is floor
division).  The script parses a TEI XML play, runs sentiment analysis on
each speech and displays one pixel per speech on an 8x8 Unicorn HAT, or
prints text symbols when the HAT is disabled.

Modelling conventions:
  * Python floats are modelled as rationals (ℚ); the sentiment backends
    (nltk VADER, pattern.en) are opaque external libraries and are
    modelled as oracle functions `String → ℚ`.
  * The side effects of a run (hardware calls, prints, sleeps) are
    modelled as an explicit trace: a `List Effect`.
  * A TEI `<sp>` element is modelled by the data the loader reads from
    it: whether it has a `<speaker>` child, and the list of its
    descendant text nodes in document order.
-/

namespace Play

/-- Source line 18: `LIGHT = 255`. -/
def LIGHT : ℤ := 255

/-- Source line 23: `UH_LED_COUNT = 64`. -/
def UH_LED_COUNT : ℕ := 64

/-- Source line 24: `UH_LED_LINE_COUNT = int(math.sqrt(UH_LED_COUNT))`;
`math.sqrt(64.0)` is exactly `8.0`, so this is `Nat.sqrt 64 = 8`. -/
def UH_LED_LINE_COUNT : ℕ := Nat.sqrt UH_LED_COUNT

/-- Source line 26: `WORDS_PER_MINUTE = 120`. -/
def WORDS_PER_MINUTE : ℕ := 120

/-- Strip leading and trailing whitespace from a list of characters. -/
def stripChars (cs : List Char) : List Char :=
  ((cs.dropWhile Char.isWhitespace).reverse.dropWhile
    Char.isWhitespace).reverse

/-- Python `str.strip()`: remove leading and trailing whitespace. -/
def pythonStrip (s : String) : String := String.mk (stripChars s.data)

/-- Split a character list at every character satisfying `p`; empty
pieces between consecutive separators are kept. -/
def splitChars (p : Char → Bool) : List Char → List (List Char)
  | [] => [[]]
  | c :: cs =>
      match splitChars p cs with
      | [] => [[]]
      | w :: ws => if p c then [] :: w :: ws else (c :: w) :: ws

/-- Python `str.split()` with no argument: split on whitespace, with no
empty strings in the result (so runs of whitespace count once and
leading/trailing whitespace is ignored). -/
def pythonSplit (s : String) : List String :=
  ((splitChars Char.isWhitespace s.data).map
    (fun cs => String.mk cs)).filter (fun w => w ≠ "")

/-- Python `sep.join(items)`. -/
def joinWith (sep : String) : List String → String
  | [] => ""
  | [s] => s
  | s :: rest => s ++ sep ++ joinWith sep rest

/-- A TEI `<sp>` element as seen by the loader: `speaker` records whether
the element has a `<speaker>` child (the XPath predicate `[tei:speaker]`),
`texts` is the list of its descendant text nodes (`.//text()`). -/
structure Sp where
  speaker : Bool
  texts : List String
deriving DecidableEq, Repr

/-- The loop body's joined text for one `<sp>` (source line 80):
`' '.join([t.strip() for t in sp.xpath('.//text()')])`. -/
def spText (sp : Sp) : String :=
  joinWith " " (sp.texts.map pythonStrip)

/-- The loop of `_get_lines_from_xml` (source lines 79-82): for each sp,
if the joined text is truthy (non-empty), append its stripped form. -/
def collectLines : List Sp → List String
  | [] => []
  | sp :: rest =>
      let text := spText sp
      if text = "" then collectLines rest
      else pythonStrip text :: collectLines rest

/-- `_get_lines_from_xml` (source lines 73-84): select every `<sp>` with a
`<speaker>` child, then run the collection loop.  (Parsing errors of
`etree.parse` are outside this model; the input is the parsed sp list.) -/
def getLinesFromXml (sps : List Sp) : List String :=
  collectLines (sps.filter (fun sp => sp.speaker))

/-- `_get_sentiment` (source lines 87-92), with the two sentiment
libraries as oracles: if `nlp == 'pattern'` return `sentiment(text)[0]`
(oracle `pat`), otherwise fall through to the nltk VADER compound score
(oracle `nlt`).  Every path returns a value; no exception is raised. -/
def getSentimentQ (pat nlt : String → ℚ) (text nlp : String) : ℚ :=
  if nlp = "pattern" then pat text else nlt text

/-- The same `_get_sentiment` viewed in an error monad, so that claims
about failure (`AnalysisError`) are statable: a raised backend-selection
error would be a `.error` value.  The source body contains no raise and
no selector check beyond `nlp == 'pattern'`, so the embedding is `.ok`
on every path. -/
def getSentimentE (pat nlt : String → ℚ) (text nlp : String) :
    Except String ℚ :=
  if nlp = "pattern" then Except.ok (pat text) else Except.ok (nlt text)

/-- Source line 57: `intensity = int(math.ceil(abs(polarity) * LIGHT))`. -/
def intensityOf (polarity : ℚ) : ℤ := ⌈|polarity| * (LIGHT : ℚ)⌉

/-- `_get_colour` (source lines 95-101). -/
def getColour (polarity : ℚ) (intensity : ℤ) : ℤ × ℤ × ℤ :=
  if polarity = 0 then (0, 0, 0)
  else if 0 < polarity then (LIGHT - intensity, 0, LIGHT)
  else (LIGHT, 0, LIGHT - intensity)

/-- `_get_speed` (source lines 104-109): word count of `text.split()`
divided by `WORDS_PER_MINUTE` as a float. -/
def getSpeed (text : String) : ℚ :=
  ((pythonSplit text).length : ℚ) / (WORDS_PER_MINUTE : ℚ)

/-- Grid position of a speech index (source lines 61-62):
`x = (idx % UH_LED_COUNT) % UH_LED_LINE_COUNT`,
`y = (idx % UH_LED_COUNT) / UH_LED_LINE_COUNT` — Python 2 `/` on ints is
floor division, hence `Nat` division here. -/
def positionOf (idx : ℕ) : ℕ × ℕ :=
  ((idx % UH_LED_COUNT) % UH_LED_LINE_COUNT,
   (idx % UH_LED_COUNT) / UH_LED_LINE_COUNT)

/-- One observable side effect of the script. -/
inductive Effect where
  /-- `uh.brightness(b)` (source line 47). -/
  | brightness (b : ℚ)
  /-- `uh.set_pixel(x, y, r, g, b)` (source line 113). -/
  | setPixel (x y : ℕ) (r g b : ℤ)
  /-- `uh.show()` (source line 114). -/
  | uhShow
  /-- `time.sleep(t)` (source line 115). -/
  | sleep (t : ℚ)
  /-- `print('{\x7d '.format(symbol)),` (source line 126): the symbol. -/
  | printSym (s : String)
  /-- the bare `print` emitting a line break (source line 129). -/
  | printNewline
  /-- `print(idx, text, polarity, intensity, speed)` (source line 70). -/
  | verbose (idx : ℕ) (text : String) (polarity : ℚ) (intensity : ℤ)
      (speed : ℚ)
deriving DecidableEq, Repr

/-- `_show_pixel` (source lines 112-115) as a trace. -/
def showPixelEffects (x y : ℕ) (r g b : ℤ) (speed : ℚ) : List Effect :=
  [Effect.setPixel x y r g b, Effect.uhShow, Effect.sleep speed]

/-- `_print_pixel` (source lines 118-129) as a trace: the symbol is `'.'`
by default, `'+'` if `polarity > 0`, `'-'` elif `polarity < 0`; a line
break follows iff `x == UH_LED_LINE_COUNT - 1`.  (`speed` is a parameter
of the source function but is unused there.) -/
def printPixelEffects (x : ℕ) (polarity : ℚ) (speed : ℚ) : List Effect :=
  let symbol : String :=
    if 0 < polarity then "+" else if polarity < 0 then "-" else "."
  Effect.printSym symbol ::
    (if x = UH_LED_LINE_COUNT - 1 then [Effect.printNewline] else [])

/-- `_process_text` (source lines 55-70) as a trace. -/
def processTextEffects (idx : ℕ) (text nlp : String) (pat nlt : String → ℚ)
    (unicorns verbose : Bool) : List Effect :=
  let polarity := getSentimentQ pat nlt text nlp
  let intensity := intensityOf polarity
  let rgb := getColour polarity intensity
  let speed := getSpeed text
  let x := (idx % UH_LED_COUNT) % UH_LED_LINE_COUNT
  let y := (idx % UH_LED_COUNT) / UH_LED_LINE_COUNT
  (if unicorns then showPixelEffects x y rgb.1 rgb.2.1 rgb.2.2 speed
   else printPixelEffects x polarity speed) ++
  (if verbose then [Effect.verbose idx text polarity intensity speed]
   else [])

/-- `play` (source lines 38-52) as a trace: `unicorns = not no_unicorns`;
if unicorns, set the brightness; then process each extracted line with
its `enumerate` index. -/
def playEffects (sps : List Sp) (nlp : String) (pat nlt : String → ℚ)
    (brightness : ℚ) (noUnicorns verbose : Bool) : List Effect :=
  let unicorns := !noUnicorns
  (if unicorns then [Effect.brightness brightness] else []) ++
  ((getLinesFromXml sps).enum.map
    (fun p =>
      processTextEffects p.1 p.2 nlp pat nlt unicorns verbose)).flatten

/-- An effect is a hardware operation (a call into the `unicornhat`
driver): the brightness setting, a set-pixel, or a buffer flush. -/
def isHardware : Effect → Bool
  | Effect.brightness _ => true
  | Effect.setPixel _ _ _ _ _ => true
  | Effect.uhShow => true
  | _ => false

/-- An effect is part of the display action for a speech (hardware pixel
write, flush and sleep, or the textual symbol and line break). -/
def isDisplay : Effect → Bool
  | Effect.setPixel _ _ _ _ _ => true
  | Effect.uhShow => true
  | Effect.sleep _ => true
  | Effect.printSym _ => true
  | Effect.printNewline => true
  | _ => false

/-- An effect is a printed symbol. -/
def isSymbol : Effect → Bool
  | Effect.printSym _ => true
  | _ => false

/-! ### Helper lemmas -/

theorem getColour_of_eq_zero {p : ℚ} (i : ℤ) (h : p = 0) :
    getColour p i = (0, 0, 0) := by
  simp [getColour, h]

theorem getColour_of_pos {p : ℚ} (i : ℤ) (h : 0 < p) :
    getColour p i = (LIGHT - i, 0, LIGHT) := by
  simp [getColour, h, h.ne.symm]

theorem getColour_of_neg {p : ℚ} (i : ℤ) (h : p < 0) :
    getColour p i = (LIGHT, 0, LIGHT - i) := by
  simp [getColour, h.ne, not_lt.mpr h.le]

theorem UH_LED_LINE_COUNT_eq : UH_LED_LINE_COUNT = 8 := by
  rw [UH_LED_LINE_COUNT, UH_LED_COUNT, show (64 : ℕ) = 8 * 8 from rfl]
  exact Nat.sqrt_eq 8

theorem intensityOf_nonneg (p : ℚ) : 0 ≤ intensityOf p := by
  rw [intensityOf, LIGHT]
  exact Int.ceil_nonneg (by positivity)

theorem intensityOf_le_of_abs_le {p : ℚ} (h : |p| ≤ 1) :
    intensityOf p ≤ 255 := by
  rw [intensityOf]
  have h255 : |p| * (LIGHT : ℚ) ≤ ((255 : ℤ) : ℚ) := by
    rw [LIGHT]
    push_cast
    nlinarith [abs_nonneg p]
  calc ⌈|p| * (LIGHT : ℚ)⌉ ≤ (255 : ℤ) := Int.ceil_le.mpr h255

/-! ### Claim theorems -/

/-- C1: for every polarity `p` and intensity `i = ceil(|p| * 255)`, the
colour is exactly `(0, 0, 0)` when `p = 0`, `(255 - i, 0, 255)` when
`p > 0`, and `(255, 0, 255 - i)` when `p < 0`. -/
theorem colour_rule (p : ℚ) :
    (p = 0 → getColour p (intensityOf p) = (0, 0, 0)) ∧
    (0 < p → getColour p (intensityOf p) = (255 - intensityOf p, 0, 255)) ∧
    (p < 0 → getColour p (intensityOf p) = (255, 0, 255 - intensityOf p)) :=
  ⟨fun h => getColour_of_eq_zero _ h,
   fun h => getColour_of_pos _ h,
   fun h => getColour_of_neg _ h⟩

/-- Witness for C1: the three cases of the colour rule at the concrete
polarities `0`, `1/2` and `-1/2`. -/
theorem colour_rule_witness :
    getColour 0 (intensityOf 0) = (0, 0, 0) ∧
    getColour (1/2) (intensityOf (1/2)) =
      (255 - intensityOf (1/2), 0, 255) ∧
    getColour (-(1/2)) (intensityOf (-(1/2))) =
      (255, 0, 255 - intensityOf (-(1/2))) :=
  ⟨(colour_rule 0).1 rfl,
   (colour_rule (1/2)).2.1 (by norm_num),
   (colour_rule (-(1/2))).2.2 (by norm_num)⟩

/-- C4: for every speech index `idx ≥ 0` the grid position is
`x = (idx % 64) % 8` and `y = (idx % 64) / 8` (floor division); the
position is periodic with period 64; index 63 maps to `(7, 7)` and index
64 maps to `(0, 0)`. -/
theorem grid_position_formula (idx : ℕ) :
    positionOf idx = ((idx % 64) % 8, (idx % 64) / 8) ∧
    positionOf (idx + 64) = positionOf idx ∧
    positionOf 63 = (7, 7) ∧
    positionOf 64 = (0, 0) := by
  refine ⟨?_, ?_,
    by simp [positionOf, UH_LED_COUNT, UH_LED_LINE_COUNT_eq],
    by simp [positionOf, UH_LED_COUNT, UH_LED_LINE_COUNT_eq]⟩
  · simp [positionOf, UH_LED_COUNT, UH_LED_LINE_COUNT_eq]
  · simp [positionOf, UH_LED_COUNT, Nat.add_mod_right]

/-- C6: for polarity exactly `-0.2 = -(1/5)` the intensity is
`ceil(0.2 * 255) = 51` and the colour is `(255, 0, 204)`. -/
theorem polarity_neg_point_two_scenario :
    intensityOf (-(1/5)) = 51 ∧
    getColour (-(1/5)) (intensityOf (-(1/5))) = (255, 0, 204) := by
  have habs : |(-(1/5) : ℚ)| * (LIGHT : ℚ) = 51 := by
    rw [abs_neg, abs_of_nonneg (by norm_num : (0:ℚ) ≤ 1/5), LIGHT]
    norm_num
  have hint : intensityOf (-(1/5)) = 51 := by
    rw [intensityOf, habs]
    norm_num
  refine ⟨hint, ?_⟩
  rw [hint, getColour_of_neg 51 (by norm_num), LIGHT]
  norm_num

/-- C7: for every text, the delay equals `wordCount / 120` where
`wordCount` splits the text on whitespace; the delay is nonnegative, and
it is zero exactly when the text has zero words. -/
theorem delay_formula (t : String) :
    getSpeed t = ((pythonSplit t).length : ℚ) / 120 ∧
    0 ≤ getSpeed t ∧
    (getSpeed t = 0 ↔ (pythonSplit t).length = 0) := by
  refine ⟨rfl, ?_, ?_⟩
  · exact div_nonneg (Nat.cast_nonneg _) (by norm_num)
  · rw [getSpeed, WORDS_PER_MINUTE]
    rw [div_eq_zero_iff]
    push_cast
    norm_num

/-- C5: for every polarity with `|p| ≤ 1`, the intensity
`ceil(|p| * 255)` lies in `[0, 255]`, and consequently each of the red,
green and blue channels of the mapped colour lies in `[0, 255]`. -/
theorem signal_channels_in_range (p : ℚ) (h : |p| ≤ 1) :
    (0 ≤ intensityOf p ∧ intensityOf p ≤ 255) ∧
    (0 ≤ (getColour p (intensityOf p)).1 ∧
      (getColour p (intensityOf p)).1 ≤ 255) ∧
    (0 ≤ (getColour p (intensityOf p)).2.1 ∧
      (getColour p (intensityOf p)).2.1 ≤ 255) ∧
    (0 ≤ (getColour p (intensityOf p)).2.2 ∧
      (getColour p (intensityOf p)).2.2 ≤ 255) := by
  have h0 := intensityOf_nonneg p
  have h1 := intensityOf_le_of_abs_le h
  rcases lt_trichotomy p 0 with hp | hp | hp
  · rw [getColour_of_neg (intensityOf p) hp]
    simp only [LIGHT]
    exact ⟨⟨h0, h1⟩, by omega, by omega, by omega⟩
  · rw [getColour_of_eq_zero (intensityOf p) hp]
    exact ⟨⟨h0, h1⟩, by norm_num, by norm_num, by norm_num⟩
  · rw [getColour_of_pos (intensityOf p) hp]
    simp only [LIGHT]
    exact ⟨⟨h0, h1⟩, by omega, by omega, by omega⟩

/-- Witness for C5: the range bounds at the concrete polarity `-1/2`. -/
theorem signal_channels_in_range_witness :
    |(-(1/2) : ℚ)| ≤ 1 ∧
    ((0 ≤ intensityOf (-(1/2)) ∧ intensityOf (-(1/2)) ≤ 255) ∧
     (0 ≤ (getColour (-(1/2)) (intensityOf (-(1/2)))).1 ∧
       (getColour (-(1/2)) (intensityOf (-(1/2)))).1 ≤ 255) ∧
     (0 ≤ (getColour (-(1/2)) (intensityOf (-(1/2)))).2.1 ∧
       (getColour (-(1/2)) (intensityOf (-(1/2)))).2.1 ≤ 255) ∧
     (0 ≤ (getColour (-(1/2)) (intensityOf (-(1/2)))).2.2 ∧
       (getColour (-(1/2)) (intensityOf (-(1/2)))).2.2 ≤ 255)) :=
  ⟨by rw [abs_neg, abs_of_nonneg (by norm_num : (0:ℚ) ≤ 1/2)]; norm_num,
   signal_channels_in_range (-(1/2))
     (by rw [abs_neg, abs_of_nonneg (by norm_num : (0:ℚ) ≤ 1/2)]; norm_num)⟩

/-- C8: in the text display variant exactly one symbol is printed per
speech — `+` when polarity is positive, `-` when negative, `.` when
exactly zero — and a line break is emitted exactly when the column index
equals 7, which for speech `idx` means `idx % 8 = 7`, i.e. once every 8
speeches. -/
theorem text_variant_symbols (idx x : ℕ) (p s : ℚ) :
    ((0 < p → printPixelEffects x p s = Effect.printSym "+" ::
        (if x = 7 then [Effect.printNewline] else [])) ∧
     (p < 0 → printPixelEffects x p s = Effect.printSym "-" ::
        (if x = 7 then [Effect.printNewline] else [])) ∧
     (p = 0 → printPixelEffects x p s = Effect.printSym "." ::
        (if x = 7 then [Effect.printNewline] else []))) ∧
    (printPixelEffects x p s).countP isSymbol = 1 ∧
    (Effect.printNewline ∈ printPixelEffects x p s ↔ x = 7) ∧
    ((positionOf idx).1 = 7 ↔ idx % 8 = 7) := by
  have hline : UH_LED_LINE_COUNT - 1 = 7 := by rw [UH_LED_LINE_COUNT_eq]
  refine ⟨⟨fun h => ?_, fun h => ?_, fun h => ?_⟩, ?_, ?_, ?_⟩
  · simp [printPixelEffects, hline, h]
  · simp [printPixelEffects, hline, h, h.ne, not_lt.mpr h.le]
  · simp [printPixelEffects, hline, h]
  · rcases eq_or_ne x (UH_LED_LINE_COUNT - 1) with hx | hx <;>
      simp [printPixelEffects, hx, isSymbol, List.countP_cons]
  · rcases eq_or_ne x 7 with hx | hx <;>
      simp [printPixelEffects, hline, hx]
  · rw [positionOf, UH_LED_LINE_COUNT_eq, UH_LED_COUNT,
      Nat.mod_mod_of_dvd idx (by norm_num : (8:ℕ) ∣ 64)]

/-- Witness for C8: the three symbol cases at concrete polarities and
columns, with the line break present exactly in the column-7 case. -/
theorem text_variant_symbols_witness :
    ((0:ℚ) < 1/2 ∧ printPixelEffects 3 (1/2) 0 = Effect.printSym "+" ::
       (if (3:ℕ) = 7 then [Effect.printNewline] else [])) ∧
    ((-(1/2) : ℚ) < 0 ∧ printPixelEffects 7 (-(1/2)) 0 =
       Effect.printSym "-" ::
         (if (7:ℕ) = 7 then [Effect.printNewline] else [])) ∧
    printPixelEffects 0 0 0 = Effect.printSym "." ::
      (if (0:ℕ) = 7 then [Effect.printNewline] else []) :=
  ⟨⟨by norm_num, (text_variant_symbols 0 3 (1/2) 0).1.1 (by norm_num)⟩,
   ⟨by norm_num, (text_variant_symbols 0 7 (-(1/2)) 0).1.2.1 (by norm_num)⟩,
   (text_variant_symbols 0 0 0 0).1.2.2 rfl⟩

/-- Members of the collection loop's output: each comes from a listed sp
whose joined text is non-empty, and is the stripped form of that join. -/
theorem mem_collectLines {l : List Sp} {s : String}
    (h : s ∈ collectLines l) :
    ∃ sp, sp ∈ l ∧ spText sp ≠ "" ∧ s = pythonStrip (spText sp) := by
  induction l with
  | nil => simp [collectLines] at h
  | cons sp rest ih =>
    simp only [collectLines] at h
    by_cases he : spText sp = ""
    · rw [if_pos he] at h
      obtain ⟨a, ha, h1, h2⟩ := ih h
      exact ⟨a, List.mem_cons_of_mem _ ha, h1, h2⟩
    · rw [if_neg he] at h
      rcases List.mem_cons.mp h with h | h
      · exact ⟨sp, List.mem_cons_self sp rest, he, h⟩
      · obtain ⟨a, ha, h1, h2⟩ := ih h
        exact ⟨a, List.mem_cons_of_mem _ ha, h1, h2⟩

/-- C2 counterexample: a speech with a speaker and two whitespace-only
text nodes.  Each node strips to `""`, joining with a single space gives
`" "`, which is non-empty, so the speech is not discarded — yet its final
stripped text is the empty string, which ends up in the returned list. -/
theorem loader_empty_string_counterexample :
    getLinesFromXml [Sp.mk true [" ", " "]] = [""] ∧
    "" ∈ getLinesFromXml [Sp.mk true [" ", " "]] :=
  ⟨by decide, by decide⟩

/-- C2 amended: the loader discards a speech exactly when its joined
text (each node stripped, joined with single spaces) is empty before the
final trim; every returned element is the stripped join of a
speaker-bearing speech whose join is non-empty, and such an element can
itself be the empty string when the join is whitespace-only. -/
theorem loader_lines_amended (sps : List Sp) (s : String)
    (h : s ∈ getLinesFromXml sps) :
    ∃ sp, sp ∈ sps ∧ sp.speaker = true ∧ spText sp ≠ "" ∧
      s = pythonStrip (spText sp) := by
  rw [getLinesFromXml] at h
  obtain ⟨sp, hmem, hne, hs⟩ := mem_collectLines h
  rw [List.mem_filter] at hmem
  exact ⟨sp, hmem.1, hmem.2, hne, hs⟩

/-- Witness for the amended C2 at a concrete one-speech document. -/
theorem loader_lines_amended_witness :
    ("hi" ∈ getLinesFromXml [Sp.mk true ["hi"]]) ∧
    (∃ sp, sp ∈ [Sp.mk true ["hi"]] ∧ sp.speaker = true ∧
      spText sp ≠ "" ∧ "hi" = pythonStrip (spText sp)) :=
  ⟨by decide, loader_lines_amended [Sp.mk true ["hi"]] "hi" (by decide)⟩

/-- C3 counterexample: `"textblob"` is neither of the two selector values
the spec recognizes, yet the estimator does not fail on it — it falls
through to the nltk branch and returns that backend's score. -/
theorem backend_selector_counterexample :
    (("textblob" : String) ≠ "nltk" ∧ ("textblob" : String) ≠ "pattern") ∧
    getSentimentE (fun _ => 1/2) (fun _ => -(1/4)) "a fine day" "textblob" =
      Except.ok (-(1/4)) := by
  refine ⟨⟨by decide, by decide⟩, ?_⟩
  rw [getSentimentE, if_neg (by decide)]

/-- C3 amended: the estimator explicitly recognizes only the selector
`"pattern"`; every other selector value — `"nltk"` included — silently
selects the nltk compound-lexicon backend and returns its score.  No
selector value makes the estimator fail: it returns a score on every
input. -/
theorem backend_dispatch_amended (pat nlt : String → ℚ)
    (text nlp : String) :
    (nlp ≠ "pattern" →
      getSentimentE pat nlt text nlp = Except.ok (nlt text)) ∧
    getSentimentE pat nlt text "pattern" = Except.ok (pat text) ∧
    ∃ v, getSentimentE pat nlt text nlp = Except.ok v := by
  refine ⟨fun h => ?_, ?_, ?_⟩
  · rw [getSentimentE, if_neg h]
  · rw [getSentimentE, if_pos rfl]
  · rw [getSentimentE]
    by_cases h : nlp = "pattern"
    · rw [if_pos h]
      exact ⟨pat text, rfl⟩
    · rw [if_neg h]
      exact ⟨nlt text, rfl⟩

/-- Witness for the amended C3 at the selector `"nltk"`. -/
theorem backend_dispatch_amended_witness :
    ("nltk" : String) ≠ "pattern" ∧
    getSentimentE (fun _ => 1/3) (fun _ => 0) "hello" "nltk" =
      Except.ok 0 :=
  ⟨by decide,
   (backend_dispatch_amended (fun _ => 1/3) (fun _ => 0) "hello"
     "nltk").1 (by decide)⟩

/-- Every effect of the text display variant is a printed symbol or a
printed line break, hence not a hardware operation. -/
theorem isHardware_false_of_mem_printPixelEffects {x : ℕ} {p s : ℚ}
    {e : Effect} (h : e ∈ printPixelEffects x p s) :
    isHardware e = false := by
  simp only [printPixelEffects] at h
  rcases List.mem_cons.mp h with h | h
  · subst h
    rfl
  · by_cases hx : x = UH_LED_LINE_COUNT - 1
    · rw [if_pos hx] at h
      rw [List.mem_singleton.mp h]
      rfl
    · rw [if_neg hx] at h
      exact absurd h (List.not_mem_nil e)

/-- With the hardware disabled, no effect of one speech's processing is
a hardware operation. -/
theorem isHardware_false_of_mem_processTextEffects {idx : ℕ}
    {text nlp : String} {pat nlt : String → ℚ} {verbose : Bool}
    {e : Effect}
    (h : e ∈ processTextEffects idx text nlp pat nlt false verbose) :
    isHardware e = false := by
  simp only [processTextEffects, Bool.false_eq_true, if_false] at h
  rcases List.mem_append.mp h with h | h
  · exact isHardware_false_of_mem_printPixelEffects h
  · by_cases hv : verbose = true
    · rw [if_pos hv] at h
      rw [List.mem_singleton.mp h]
      rfl
    · rw [if_neg hv] at h
      exact absurd h (List.not_mem_nil e)

/-- C9: when hardware mode is disabled (`no_unicorns` true), a run
performs no hardware operation at all: neither the brightness setting
nor any set-pixel or flush call appears in the run's effect trace, for
every input document and configuration. -/
theorem no_unicorns_no_hardware (sps : List Sp) (nlp : String)
    (pat nlt : String → ℚ) (brightness : ℚ) (verbose : Bool) (e : Effect)
    (he : e ∈ playEffects sps nlp pat nlt brightness true verbose) :
    isHardware e = false := by
  simp only [playEffects, Bool.not_true, Bool.false_eq_true, if_false,
    List.nil_append] at he
  rw [List.mem_flatten] at he
  obtain ⟨l, hl, hel⟩ := he
  rw [List.mem_map] at hl
  obtain ⟨pr, hpr, rfl⟩ := hl
  exact isHardware_false_of_mem_processTextEffects hel

/-- Witness for C9: a one-speech run with hardware disabled whose trace
contains the printed `.` symbol, which is not a hardware operation. -/
theorem no_unicorns_no_hardware_witness :
    (Effect.printSym "." ∈ playEffects [Sp.mk true ["hello"]] "nltk"
      (fun _ => 1) (fun _ => 0) (1/5) true false) ∧
    isHardware (Effect.printSym ".") = false :=
  ⟨by decide,
   no_unicorns_no_hardware [Sp.mk true ["hello"]] "nltk" (fun _ => 1)
     (fun _ => 0) (1/5) false (Effect.printSym ".") (by decide)⟩

/-- Every effect of the hardware pixel display is part of the display
action. -/
theorem isDisplay_of_mem_showPixelEffects {x y : ℕ} {r g b : ℤ}
    {speed : ℚ} {e : Effect} (h : e ∈ showPixelEffects x y r g b speed) :
    isDisplay e = true := by
  simp only [showPixelEffects] at h
  rcases List.mem_cons.mp h with h | h
  · subst h
    rfl
  rcases List.mem_cons.mp h with h | h
  · subst h
    rfl
  rw [List.mem_singleton.mp h]
  rfl

/-- Every effect of the text display variant is part of the display
action. -/
theorem isDisplay_of_mem_printPixelEffects {x : ℕ} {p s : ℚ}
    {e : Effect} (h : e ∈ printPixelEffects x p s) :
    isDisplay e = true := by
  simp only [printPixelEffects] at h
  rcases List.mem_cons.mp h with h | h
  · subst h
    rfl
  · by_cases hx : x = UH_LED_LINE_COUNT - 1
    · rw [if_pos hx] at h
      rw [List.mem_singleton.mp h]
      rfl
    · rw [if_neg hx] at h
      exact absurd h (List.not_mem_nil e)

/-- C10: for every speech, the verbose trace line is emitted after the
speech's display action, never before: with verbose on, the speech's
trace is exactly its display trace (non-empty and consisting only of
display effects) followed by the single verbose line. -/
theorem verbose_after_display (idx : ℕ) (text nlp : String)
    (pat nlt : String → ℚ) (unicorns : Bool) :
    processTextEffects idx text nlp pat nlt unicorns true =
      processTextEffects idx text nlp pat nlt unicorns false ++
        [Effect.verbose idx text (getSentimentQ pat nlt text nlp)
          (intensityOf (getSentimentQ pat nlt text nlp))
          (getSpeed text)] ∧
    (∀ e, e ∈ processTextEffects idx text nlp pat nlt unicorns false →
      isDisplay e = true) ∧
    processTextEffects idx text nlp pat nlt unicorns false ≠ [] := by
  refine ⟨by simp [processTextEffects], fun e he => ?_, ?_⟩
  · simp only [processTextEffects, Bool.false_eq_true, if_false,
      List.append_nil] at he
    by_cases hu : unicorns = true
    · rw [if_pos hu] at he
      exact isDisplay_of_mem_showPixelEffects he
    · rw [if_neg hu] at he
      exact isDisplay_of_mem_printPixelEffects he
  · by_cases hu : unicorns = true <;>
      simp [processTextEffects, hu, showPixelEffects, printPixelEffects]

/-- Witness for C10: a concrete speech processed in the text variant;
its trace with verbose on is the display trace followed by the verbose
line, and the printed symbol in that display trace is a display effect. -/
theorem verbose_after_display_witness :
    processTextEffects 0 "hello" "nltk" (fun _ => 0) (fun _ => 0)
        false true =
      processTextEffects 0 "hello" "nltk" (fun _ => 0) (fun _ => 0)
          false false ++
        [Effect.verbose 0 "hello"
          (getSentimentQ (fun _ => 0) (fun _ => 0) "hello" "nltk")
          (intensityOf
            (getSentimentQ (fun _ => 0) (fun _ => 0) "hello" "nltk"))
          (getSpeed "hello")] ∧
    isDisplay (Effect.printSym ".") = true :=
  ⟨(verbose_after_display 0 "hello" "nltk" (fun _ => 0) (fun _ => 0)
      false).1,
   (verbose_after_display 0 "hello" "nltk" (fun _ => 0) (fun _ => 0)
      false).2.1 (Effect.printSym ".") (by decide)⟩

end Play
